import Mathlib

/-!
Shallow embedding of the pkg-config build-dependency resolver
(src/lib.rs of pkg-config-rs).

Rust strings are modeled as their UTF-8 byte sequences (`Bytes`),
because the resolver's tokenizer measures and slices at byte offsets and
decodes raw process output with str::from_utf8.  The process
environment, the filesystem and the external process runner are
explicit parameters (`World`); the println build directives are
collected as a list of `Directive` values, and the list of spawned
commands is returned so that claims about "before any process is
spawned" are statable.  A `none` result of `Config.find` models a
panic: a failed unwrap of str::from_utf8 on stdout or stderr, or a
byte-range slice of a token whose end falls inside a multi-byte
character.
-/

abbrev Bytes : Type := List Nat

/-- UTF-8 encoding of one unicode scalar value, used only to state facts
about concrete Lean string literals at the byte level. -/
def utf8Bytes (c : Nat) : List Nat :=
  if c < 0x80 then [c]
  else if c < 0x800 then [0xC0 + c / 0x40, 0x80 + c % 0x40]
  else if c < 0x10000 then
    [0xE0 + c / 0x1000, 0x80 + c / 0x40 % 0x40, 0x80 + c % 0x40]
  else
    [0xF0 + c / 0x40000, 0x80 + c / 0x1000 % 0x40, 0x80 + c / 0x40 % 0x40, 0x80 + c % 0x40]

/-- The UTF-8 bytes of a Lean string literal. -/
def strBytes (s : String) : Bytes :=
  s.toList.foldr (fun c acc => utf8Bytes c.toNat ++ acc) []

/-- Rust str::split on a one-byte separator: splits at every occurrence,
keeping empty pieces between adjacent separators and at both ends. -/
def splitByte (sep : Nat) : Bytes → List Bytes
  | [] => [[]]
  | b :: rest =>
    match splitByte sep rest with
    | [] => [[]]
    | cur :: more => if b = sep then [] :: cur :: more else (b :: cur) :: more

/-- A UTF-8 continuation byte (10xxxxxx). -/
def contByte (b : Nat) : Bool := 0x80 ≤ b && b < 0xC0

/-- The standard UTF-8 acceptance automaton, one byte per step: `exp` is
the number of continuation bytes still expected (0 when at a character
boundary), and `lo`/`hi` bound the next byte when `exp` is positive (the
second byte of a multi-byte sequence has a lead-dependent range that
excludes overlong forms, surrogates and code points above U+10FFFF;
later continuation bytes are plain 0x80-0xBF). -/
def utf8Run : Nat → Nat → Nat → Bytes → Bool
  | 0, _, _, [] => true
  | 0, _, _, b :: rest =>
    if b < 0x80 then utf8Run 0 0 0 rest
    else if 0xC2 ≤ b && b ≤ 0xDF then utf8Run 1 0x80 0xBF rest
    else if b = 0xE0 then utf8Run 2 0xA0 0xBF rest
    else if (0xE1 ≤ b && b ≤ 0xEC) || b = 0xEE || b = 0xEF then utf8Run 2 0x80 0xBF rest
    else if b = 0xED then utf8Run 2 0x80 0x9F rest
    else if b = 0xF0 then utf8Run 3 0x90 0xBF rest
    else if 0xF1 ≤ b && b ≤ 0xF3 then utf8Run 3 0x80 0xBF rest
    else if b = 0xF4 then utf8Run 3 0x80 0x8F rest
    else false
  | _ + 1, _, _, [] => false
  | n + 1, lo, hi, b :: rest =>
    if lo ≤ b && b ≤ hi then utf8Run n 0x80 0xBF rest else false

/-- Strict UTF-8 validity of a byte sequence, as checked by
str::from_utf8 (shortest-form encodings only, no surrogates, at most
U+10FFFF). -/
def isUtf8 (s : Bytes) : Bool := utf8Run 0 0 0 s

/-- The space-separated tokens of stdout kept by the tokenizer: byte
length strictly greater than 2 (line 166 of the source). -/
def rawTokens (stdout : Bytes) : List Bytes :=
  (splitByte 0x20 stdout).filter (fun l => decide (2 < l.length))

abbrev FlagVal : Type := Bytes × Bytes

/-- One kept token sliced into a two-byte flag and the remaining value,
the Rust slices arg 0..2 and arg 2.. .  Slicing a str panics when the
end of the range falls inside a multi-byte character, i.e. when byte 2
is a continuation byte; that panic is modeled as `none`.  (Tokens this
is applied to always have length at least 3.) -/
def sliceTok (arg : Bytes) : Option FlagVal :=
  match arg with
  | a :: b :: c :: rest => if contByte c then none else some ([a, b], c :: rest)
  | _ => some (arg.take 2, arg.drop 2)

/-- Sequencing of an option-valued map over a list: any `none` (a panic
in the modeled code) aborts the whole computation. -/
def mapOpt (f : α → Option β) : List α → Option (List β)
  | [] => some []
  | a :: l =>
    match f a, mapOpt f l with
    | some b, some bs => some (b :: bs)
    | _, _ => none

/-- Lines 166-168 of the source: split stdout on single spaces, keep
tokens longer than 2 bytes, slice each into (flag, value). -/
def sliceParts (stdout : Bytes) : Option (List FlagVal) :=
  mapOpt sliceTok (rawTokens stdout)

/-- Tokenization of the raw stdout bytes as the resolver performs it:
str::from_utf8(..).unwrap() (panic on invalid UTF-8, modeled as `none`)
followed by the split/filter/slice of lines 166-168. -/
def parseParts (stdout : Bytes) : Option (List FlagVal) :=
  if isUtf8 stdout then sliceParts stdout else none

/-- The output-parser contract as the spec words it: split on single
spaces, discard tokens of length at most 2, split each survivor at
offset 2 into flag and value, preserving order. -/
def partsSpec (stdout : Bytes) : List FlagVal :=
  (rawTokens stdout).map (fun a => (a.take 2, a.drop 2))

/-- A Unix path with Rust Path component semantics: an absolute flag
(RootDir component) and the remaining components.  Empty pieces and
single-dot pieces are normalized away, which matches Path equality and
starts_with; a leading CurDir component of a relative path is not
tracked, which is irrelevant here since the source only compares
against the absolute root /usr. -/
structure RPath where
  absolute : Bool
  comps : List Bytes
deriving DecidableEq

/-- PathBuf::from on the bytes of a str. -/
def pathOf (s : Bytes) : RPath :=
  ⟨s.headD 0 == 0x2F, (splitByte 0x2F s).filter (fun p => !p.isEmpty && p != [0x2E])⟩

/-- Path::starts_with: component-wise prefix comparison. -/
def startsWithPath (d root : RPath) : Bool :=
  d.absolute == root.absolute && root.comps.isPrefixOf d.comps

/-- Path::join: appending an absolute path replaces, otherwise the
components are concatenated. -/
def joinPath (d : RPath) (rel : Bytes) : RPath :=
  let p := pathOf rel
  if p.absolute then p else ⟨d.absolute, d.comps ++ p.comps⟩

/-- The process environment as seen through env::var_os: a map from
variable names to optional values.  env::var("HOST") == env::var("TARGET")
in the source compares Results; that equality agrees with equality of
the two optional byte values, since distinct error payloads and the
unicode/non-unicode distinction both reduce to byte (in)equality. -/
abbrev Env : Type := Bytes → Option Bytes

/-- fn target_supported (lines 64-67). -/
def target_supported (env : Env) : Bool :=
  env (strBytes "HOST") == env (strBytes "TARGET")
    || (env (strBytes "PKG_CONFIG_ALLOW_CROSS")).isSome

/-- fn envify (lines 219-222): ASCII-uppercase every character, then
replace dashes by underscores.  The source maps over chars; since
to_ascii_uppercase and the dash comparison only affect single-byte
characters and UTF-8 continuation/lead bytes are at least 0x80, the
byte-wise map below is the same function on the byte representation. -/
def envify (name : Bytes) : Bytes :=
  (name.map (fun c => if 0x61 ≤ c && c ≤ 0x7A then c - 0x20 else c)).map
    (fun c => if c == 0x2D then 0x5F else c)

/-- fn infer_static (lines 204-217): the layered static/dynamic
inference from the environment. -/
def infer_static (env : Env) (name : Bytes) : Bool :=
  let n := envify name
  if (env (n ++ strBytes "_STATIC")).isSome then true
  else if (env (n ++ strBytes "_DYNAMIC")).isSome then false
  else if (env (strBytes "PKG_CONFIG_ALL_STATIC")).isSome then true
  else if (env (strBytes "PKG_CONFIG_ALL_DYNAMIC")).isSome then false
  else false

/-- An ordered list of (predicate, value) rules evaluated in fixed
order, stopping at the first match; the default is false.  This is the
spec's own model of the precedence chain. -/
def ruleChain : List (Bool × Bool) → Bool
  | [] => false
  | (p, v) :: rest => if p then v else ruleChain rest

/-- The spec's description of link-mode inference, as a first-match rule
list: per-library static, per-library dynamic, global static, global
dynamic, default dynamic. -/
def inferSpec (env : Env) (name : Bytes) : Bool :=
  ruleChain
    [((env (envify name ++ strBytes "_STATIC")).isSome, true),
     ((env (envify name ++ strBytes "_DYNAMIC")).isSome, false),
     ((env (strBytes "PKG_CONFIG_ALL_STATIC")).isSome, true),
     ((env (strBytes "PKG_CONFIG_ALL_DYNAMIC")).isSome, false)]

/-- struct Config (lines 69-73). -/
structure Config where
  statik : Option Bool
  atleast_version : Option Bytes
deriving DecidableEq

/-- struct Library (lines 75-83), without the private unit field. -/
structure Library where
  libs : List Bytes
  link_paths : List RPath
  frameworks : List Bytes
  framework_paths : List RPath
  include_paths : List RPath
deriving DecidableEq

/-- The cargo build directives printed on stdout, one constructor per
println shape: rustc-link-search=native, rustc-link-search=framework,
rustc-link-lib=static, rustc-link-lib (dynamic), and
rustc-link-lib=framework. -/
inductive Directive where
  | linkSearchNative (dir : Bytes)
  | linkSearchFramework (dir : Bytes)
  | linkLibStatic (name : Bytes)
  | linkLibDynamic (name : Bytes)
  | linkFramework (name : Bytes)
deriving DecidableEq

/-- The external command: program, arguments in order, and the extra
environment entries added with Command::env. -/
structure Cmd where
  program : Bytes
  args : List Bytes
  extraEnv : List (Bytes × Bytes)
deriving DecidableEq

/-- Captured output of a finished process: exit success, the Display
rendering of the exit status (used only inside an error message), and
the raw stdout/stderr bytes. -/
structure CmdOutput where
  success : Bool
  statusStr : Bytes
  stdout : Bytes
  stderr : Bytes
deriving DecidableEq

/-- Result of Command::output: a spawn error carrying the Display of the
io::Error, or a finished process. -/
inductive CmdOutcome where
  | spawnErr (errStr : Bytes)
  | ran (out : CmdOutput)
deriving DecidableEq

/-- The ambient world the resolver runs in: the environment, the
filesystem (fs::metadata(p).is_ok() as a predicate on paths), the
process runner, and the Debug rendering of a command (abstracted, it
only feeds error messages). -/
structure World where
  env : Env
  fs : RPath → Bool
  run : Cmd → CmdOutcome
  fmtCmd : Cmd → Bytes

/-- fn is_system_lib (lines 224-230): true unless some search directory
outside the root /usr contains lib<name>.a. -/
def is_system_lib (fs : RPath → Bool) (name : Bytes) (dirs : List RPath) : Bool :=
  let libname := strBytes "lib" ++ name ++ strBytes ".a"
  let root := pathOf (strBytes "/usr")
  !(dirs.any (fun d => !(startsWithPath d root) && fs (joinPath d libname)))

/-- Accumulated results of the first classification loop
(lines 169-180): the emitted search-path directives, the local dirs
vector, and the three path lists of the Library being built. -/
structure ClassifyOut where
  directives : List Directive
  dirs : List RPath
  link_paths : List RPath
  framework_paths : List RPath
  include_paths : List RPath
deriving DecidableEq

/-- The first loop over the parsed parts (lines 169-180): -L entries
emit a native search directive and are recorded twice (dirs and
link_paths), -F entries emit a framework search directive, -I entries
are collected silently, anything else is skipped. -/
def classifyParts : List FlagVal → ClassifyOut
  | [] => ⟨[], [], [], [], []⟩
  | (flag, val) :: rest =>
    let o := classifyParts rest
    if flag == strBytes "-L" then
      ⟨Directive.linkSearchNative val :: o.directives, pathOf val :: o.dirs,
       pathOf val :: o.link_paths, o.framework_paths, o.include_paths⟩
    else if flag == strBytes "-F" then
      ⟨Directive.linkSearchFramework val :: o.directives, o.dirs, o.link_paths,
       pathOf val :: o.framework_paths, o.include_paths⟩
    else if flag == strBytes "-I" then
      ⟨o.directives, o.dirs, o.link_paths, o.framework_paths, pathOf val :: o.include_paths⟩
    else o

/-- The second loop over the parsed parts (lines 181-190): every -l
entry is appended to libs and emits a static directive exactly when the
mode is static and is_system_lib is false, a dynamic directive
otherwise. -/
def linkLibs (fs : RPath → Bool) (statik : Bool) (dirs : List RPath) :
    List FlagVal → List Directive × List Bytes
  | [] => ([], [])
  | (flag, val) :: rest =>
    let r := linkLibs fs statik dirs rest
    if flag == strBytes "-l" then
      ((if statik && !is_system_lib fs val dirs then Directive.linkLibStatic val
        else Directive.linkLibDynamic val) :: r.1, val :: r.2)
    else r

/-- The framework scan (lines 191-198) over a fresh space split of
stdout: each token equal to "-framework" takes the next token, if any,
as a framework name and consumes it; scanning resumes after the
consumed name. -/
def scanFrameworks : List Bytes → List Bytes
  | [] => []
  | t :: rest =>
    if t == strBytes "-framework" then
      match rest with
      | [] => []
      | lib :: rest2 => lib :: scanFrameworks rest2
    else scanFrameworks rest

/-- Construction of the pkg-config invocation (lines 127-137): optional
--static, then --libs and --cflags, the PKG_CONFIG_ALLOW_SYSTEM_LIBS=1
environment addition, and the single query argument. -/
def buildCmd (cfg : Config) (env : Env) (name : Bytes) : Cmd :=
  let statik := cfg.statik.getD (infer_static env name)
  ⟨strBytes "pkg-config",
   (if statik then [strBytes "--static"] else []) ++
     [strBytes "--libs", strBytes "--cflags"] ++
     [match cfg.atleast_version with
      | some v => name ++ strBytes " >= " ++ v
      | none => name],
   [(strBytes "PKG_CONFIG_ALLOW_SYSTEM_LIBS", strBytes "1")]⟩

/-- The message of the cross-compilation error (lines 123-124); the
Rust line continuation collapses to a single space-free join. -/
def crossMsg : Bytes :=
  strBytes "pkg-config doesn" ++ [0x27] ++
    strBytes "t handle cross compilation. Use PKG_CONFIG_ALLOW_CROSS=1 to override"

/-- The message of the non-zero-exit error (lines 144-154). -/
def failMsg (w : World) (cmd : Cmd) (out : CmdOutput) : Bytes :=
  strBytes "`" ++ w.fmtCmd cmd ++ strBytes "` did not exit successfully: " ++ out.statusStr
    ++ (if 0 < out.stdout.length then strBytes "\n--- stdout\n" ++ out.stdout else [])
    ++ (if 0 < out.stderr.length then strBytes "\n--- stderr\n" ++ out.stderr else [])

/-- Lines 157-200: parse stdout and run the three loops, producing the
emitted directives and the Library; `none` is the slice panic. -/
def processOutput (fs : RPath → Bool) (statik : Bool) (stdout : Bytes) :
    Option (List Directive × Library) :=
  match sliceParts stdout with
  | none => none
  | some parts =>
    let o := classifyParts parts
    let r := linkLibs fs statik o.dirs parts
    let fws := scanFrameworks (splitByte 0x20 stdout)
    some (o.directives ++ r.1 ++ fws.map Directive.linkFramework,
      ⟨r.2, o.link_paths, fws, o.framework_paths, o.include_paths⟩)

/-- Config::find (lines 119-201).  The result lists the commands that
were spawned, the build directives printed, and the Ok/Err outcome;
`none` models a panic (invalid UTF-8 on stdout or stderr, or a token
slice ending inside a multi-byte character). -/
def Config.find (cfg : Config) (w : World) (name : Bytes) :
    Option (List Cmd × List Directive × Except Bytes Library) :=
  if (w.env (envify name ++ strBytes "_NO_PKG_CONFIG")).isSome then
    some ([], [], Except.error (strBytes "pkg-config requested to be aborted for " ++ name))
  else if !target_supported w.env then
    some ([], [], Except.error crossMsg)
  else
    let cmd := buildCmd cfg w.env name
    match w.run cmd with
    | CmdOutcome.spawnErr e =>
      some ([cmd], [], Except.error
        (strBytes "failed to run `" ++ w.fmtCmd cmd ++ strBytes "`: " ++ e))
    | CmdOutcome.ran out =>
      if isUtf8 out.stdout && isUtf8 out.stderr then
        if out.success then
          match processOutput w.fs (cfg.statik.getD (infer_static w.env name)) out.stdout with
          | some (ds, lib) => some ([cmd], ds, Except.ok lib)
          | none => none
        else some ([cmd], [], Except.error (failMsg w cmd out))
      else none

/-- An environment with no variables set; note HOST and TARGET are then
equal (both absent), so the target is supported. -/
def emptyEnv : Env := fun _ => none

/-- A successful run with the given ASCII stdout and empty stderr. -/
def ranOut (s : String) : CmdOutcome := CmdOutcome.ran ⟨true, [], strBytes s, []⟩

/-- A configuration forcing static mode explicitly. -/
def cfgStatic : Config := ⟨some true, none⟩

/-- A configuration with no overrides at all. -/
def cfgPlain : Config := ⟨none, none⟩

/-- World for the static-linking scenarios: empty environment, a
filesystem containing exactly /opt/lib/libfoo.a, and a pkg-config that
reports "-L/opt/lib -lfoo". -/
def wOpt : World :=
  ⟨emptyEnv, fun p => p == pathOf (strBytes "/opt/lib/libfoo.a"),
   fun _ => ranOut "-L/opt/lib -lfoo", fun _ => []⟩

/-- The directives wOpt produces for library foo in static mode. -/
def dsOpt : List Directive :=
  [Directive.linkSearchNative (strBytes "/opt/lib"), Directive.linkLibStatic (strBytes "foo")]

/-- The Library wOpt produces for foo. -/
def libOpt : Library := ⟨[strBytes "foo"], [pathOf (strBytes "/opt/lib")], [], [], []⟩

/-- World whose pkg-config emits invalid UTF-8 on stdout. -/
def wPanic : World :=
  ⟨emptyEnv, fun _ => false, fun _ => CmdOutcome.ran ⟨true, [], [0xFF], []⟩, fun _ => []⟩

/-- Environment with FOO_STATIC, FOO_DYNAMIC and PKG_CONFIG_ALL_DYNAMIC
all set: the per-library static rule must win. -/
def envBoth : Env := fun v =>
  if v == strBytes "FOO_STATIC" || v == strBytes "FOO_DYNAMIC"
      || v == strBytes "PKG_CONFIG_ALL_DYNAMIC" then some [] else none

/-- World with envBoth and a pkg-config printing nothing. -/
def wBoth : World := ⟨envBoth, fun _ => false, fun _ => ranOut "", fun _ => []⟩

/-- Environment disabling discovery of foo. -/
def envNoPkg : Env := fun v => if v == strBytes "FOO_NO_PKG_CONFIG" then some [] else none

/-- World in which discovery of foo is disabled by the environment. -/
def wNoPkg : World := ⟨envNoPkg, fun _ => false, fun _ => ranOut "", fun _ => []⟩

/-- A cross-compiling environment: HOST and TARGET differ, no override. -/
def envCross : Env := fun v =>
  if v == strBytes "HOST" then some (strBytes "x") else
  if v == strBytes "TARGET" then some (strBytes "y") else none

/-- World under envCross. -/
def wCross : World := ⟨envCross, fun _ => false, fun _ => ranOut "", fun _ => []⟩

/-- A configuration requesting a minimum version 1.2. -/
def cfgVers : Config := ⟨none, some (strBytes "1.2")⟩

/-- World for the version query scenario: PKG_CONFIG_ALL_STATIC set. -/
def wAllStatic : World :=
  ⟨fun v => if v == strBytes "PKG_CONFIG_ALL_STATIC" then some [] else none,
   fun _ => false, fun _ => ranOut "", fun _ => []⟩

/-- World whose pkg-config reports a library with no -L entries. -/
def wNoDirs : World := ⟨emptyEnv, fun _ => false, fun _ => ranOut "-lfoo", fun _ => []⟩

/-- World whose pkg-config reports two frameworks and a library. -/
def wFrame : World :=
  ⟨emptyEnv, fun _ => false, fun _ => ranOut "-framework Fo -framework Ba -lfoo", fun _ => []⟩

/-- The Library produced when pkg-config prints nothing. -/
def libEmpty : Library := ⟨[], [], [], [], []⟩

theorem splitByte_ne_nil (sep : Nat) (s : Bytes) : splitByte sep s ≠ [] := by
  cases s with
  | nil => simp [splitByte]
  | cons b rest =>
    simp only [splitByte]
    rcases h : splitByte sep rest with _ | ⟨cur, more⟩ <;> simp only []
    · simp
    · split <;> simp

theorem mem_of_mem_splitByte (sep : Nat) (s : Bytes) :
    ∀ t ∈ splitByte sep s, ∀ b ∈ t, b ∈ s := by
  induction s with
  | nil =>
    intro t ht b hb
    simp [splitByte] at ht
    subst ht
    simp at hb
  | cons c rest ih =>
    intro t ht b hb
    simp only [splitByte] at ht
    rcases h : splitByte sep rest with _ | ⟨cur, more⟩
    · exact absurd h (splitByte_ne_nil sep rest)
    · simp only [h] at ht
      by_cases hc : c = sep
      · rw [if_pos hc] at ht
        rcases List.mem_cons.1 ht with h1 | h1
        · subst h1; simp at hb
        · have hm : t ∈ splitByte sep rest := by rw [h]; exact h1
          exact List.mem_cons_of_mem c (ih t hm b hb)
      · rw [if_neg hc] at ht
        rcases List.mem_cons.1 ht with h1 | h1
        · subst h1
          rcases List.mem_cons.1 hb with h2 | h2
          · exact h2 ▸ List.mem_cons_self c rest
          · have hm : cur ∈ splitByte sep rest := by
              rw [h]; exact List.mem_cons_self cur more
            exact List.mem_cons_of_mem c (ih cur hm b h2)
        · have hm : t ∈ splitByte sep rest := by
            rw [h]; exact List.mem_cons_of_mem cur h1
          exact List.mem_cons_of_mem c (ih t hm b hb)

theorem contByte_of_ascii (b : Nat) (h : b < 0x80) : contByte b = false := by
  unfold contByte
  have h1 : decide (0x80 ≤ b) = false := by
    simp only [decide_eq_false_iff_not]
    omega
  rw [h1, Bool.false_and]

theorem isUtf8_of_ascii (s : Bytes) (h : ∀ b ∈ s, b < 0x80) : isUtf8 s = true := by
  unfold isUtf8
  induction s with
  | nil => rfl
  | cons b rest ih =>
    have hb : b < 0x80 := h b (List.mem_cons_self b rest)
    simp only [utf8Run, if_pos hb]
    exact ih (fun x hx => h x (List.mem_cons_of_mem b hx))

theorem sliceTok_eq_of_some (arg : Bytes) (p : FlagVal) (h : sliceTok arg = some p) :
    p = (arg.take 2, arg.drop 2) := by
  rcases arg with _ | ⟨a, _ | ⟨b, _ | ⟨c, rest⟩⟩⟩
  · exact (Option.some_inj.1 h).symm
  · exact (Option.some_inj.1 h).symm
  · exact (Option.some_inj.1 h).symm
  · simp only [sliceTok] at h
    split at h
    · exact absurd h (by simp)
    · simp [← Option.some_inj.1 h]

theorem sliceTok_of_ascii (arg : Bytes) (h : ∀ b ∈ arg, b < 0x80) :
    sliceTok arg = some (arg.take 2, arg.drop 2) := by
  rcases arg with _ | ⟨a, _ | ⟨b, _ | ⟨c, rest⟩⟩⟩ <;> try rfl
  simp only [sliceTok]
  rw [contByte_of_ascii c (h c (by simp))]
  simp

theorem mapOpt_eq_some_map (f : α → Option β) (g : α → β) (l : List α)
    (h : ∀ a ∈ l, f a = some (g a)) : mapOpt f l = some (l.map g) := by
  induction l with
  | nil => rfl
  | cons a l ih =>
    simp only [mapOpt, h a (List.mem_cons_self a l),
      ih (fun x hx => h x (List.mem_cons_of_mem a hx)), List.map]

theorem mapOpt_some_eq_map (f : α → Option β) (g : α → β)
    (hfg : ∀ a b, f a = some b → b = g a) (l : List α) (l' : List β)
    (h : mapOpt f l = some l') : l' = l.map g := by
  induction l generalizing l' with
  | nil =>
    simp only [mapOpt] at h
    simp [← Option.some_inj.1 h]
  | cons a l ih =>
    simp only [mapOpt] at h
    rcases hfa : f a with _ | b <;> rw [hfa] at h
    · exact absurd h (by simp)
    · rcases hml : mapOpt f l with _ | bs <;> rw [hml] at h
      · exact absurd h (by simp)
      · rw [← Option.some_inj.1 h, List.map, ← hfg a b hfa, ← ih bs hml]

theorem mem_of_mapOpt_some (f : α → Option β) (l : List α) (l' : List β)
    (h : mapOpt f l = some l') (b : β) (hb : b ∈ l') : ∃ a ∈ l, f a = some b := by
  induction l generalizing l' with
  | nil =>
    simp only [mapOpt] at h
    rw [← Option.some_inj.1 h] at hb
    simp at hb
  | cons a l ih =>
    simp only [mapOpt] at h
    rcases hfa : f a with _ | b' <;> rw [hfa] at h
    · exact absurd h (by simp)
    · rcases hml : mapOpt f l with _ | bs <;> rw [hml] at h
      · exact absurd h (by simp)
      · rw [← Option.some_inj.1 h] at hb
        rcases List.mem_cons.1 hb with h1 | h1
        · exact ⟨a, List.mem_cons_self a l, h1 ▸ hfa⟩
        · obtain ⟨x, hx, hfx⟩ := ih bs hml h1
          exact ⟨x, List.mem_cons_of_mem a hx, hfx⟩

theorem sliceParts_some_eq (stdout : Bytes) (ps : List FlagVal)
    (h : sliceParts stdout = some ps) : ps = partsSpec stdout :=
  mapOpt_some_eq_map sliceTok (fun a => (a.take 2, a.drop 2))
    (fun a b hb => sliceTok_eq_of_some a b hb) _ _ h

theorem classifyParts_dirs_eq (parts : List FlagVal) :
    (classifyParts parts).dirs = (classifyParts parts).link_paths := by
  induction parts with
  | nil => rfl
  | cons p rest ih =>
    obtain ⟨flag, val⟩ := p
    simp only [classifyParts]
    split_ifs <;> simp [ih]

theorem classifyParts_dirs_nil (parts : List FlagVal)
    (h : ∀ p ∈ parts, p.1 ≠ strBytes "-L") : (classifyParts parts).dirs = [] := by
  induction parts with
  | nil => rfl
  | cons p rest ih =>
    obtain ⟨flag, val⟩ := p
    have hf : ¬ (flag == strBytes "-L") = true := by
      simp only [beq_iff_eq]
      exact h (flag, val) (List.mem_cons_self _ _)
    have ihr := ih (fun q hq => h q (List.mem_cons_of_mem _ hq))
    simp only [classifyParts]
    split_ifs <;> simp_all

theorem classifyParts_directives_shape (parts : List FlagVal) (d : Directive)
    (hd : d ∈ (classifyParts parts).directives) :
    (∃ v, d = Directive.linkSearchNative v) ∨ (∃ v, d = Directive.linkSearchFramework v) := by
  induction parts with
  | nil => simp [classifyParts] at hd
  | cons p rest ih =>
    obtain ⟨flag, val⟩ := p
    simp only [classifyParts] at hd
    split_ifs at hd with h1 h2 h3
    · rcases List.mem_cons.1 hd with h | h
      · exact Or.inl ⟨val, h⟩
      · exact ih h
    · rcases List.mem_cons.1 hd with h | h
      · exact Or.inr ⟨val, h⟩
      · exact ih h
    · exact ih hd
    · exact ih hd

theorem linkLibs_eq (fs : RPath → Bool) (statik : Bool) (dirs : List RPath)
    (parts : List FlagVal) :
    linkLibs fs statik dirs parts =
      ((parts.filter (fun p => p.1 == strBytes "-l")).map
         (fun p => if statik && !is_system_lib fs p.2 dirs then Directive.linkLibStatic p.2
                   else Directive.linkLibDynamic p.2),
       (parts.filter (fun p => p.1 == strBytes "-l")).map (fun p => p.2)) := by
  induction parts with
  | nil => rfl
  | cons p rest ih =>
    obtain ⟨flag, val⟩ := p
    simp only [linkLibs, List.filter_cons]
    rcases hf : (flag == strBytes "-l") with _ | _ <;> simp_all

theorem find_some_cmds (cfg : Config) (w : World) (name : Bytes)
    (cmds : List Cmd) (ds : List Directive) (r : Except Bytes Library)
    (h : Config.find cfg w name = some (cmds, ds, r)) :
    cmds = [] ∨ cmds = [buildCmd cfg w.env name] := by
  simp only [Config.find] at h
  split_ifs at h with h1 h2
  · exact Or.inl (Prod.mk.injEq .. ▸ (Option.some_inj.1 h)).1.symm
  · exact Or.inl (Prod.mk.injEq .. ▸ (Option.some_inj.1 h)).1.symm
  · split at h
    · exact Or.inr (Prod.mk.injEq .. ▸ (Option.some_inj.1 h)).1.symm
    · split_ifs at h with h3 h4
      · split at h
        · exact Or.inr (Prod.mk.injEq .. ▸ (Option.some_inj.1 h)).1.symm
        · exact absurd h (by simp)
      · exact Or.inr (Prod.mk.injEq .. ▸ (Option.some_inj.1 h)).1.symm

theorem find_ok_inv (cfg : Config) (w : World) (name : Bytes)
    (cmds : List Cmd) (ds : List Directive) (lib : Library)
    (h : Config.find cfg w name = some (cmds, ds, Except.ok lib)) :
    ∃ out parts,
      w.run (buildCmd cfg w.env name) = CmdOutcome.ran out ∧
      cmds = [buildCmd cfg w.env name] ∧
      sliceParts out.stdout = some parts ∧
      ds = (classifyParts parts).directives
        ++ (linkLibs w.fs (cfg.statik.getD (infer_static w.env name))
              (classifyParts parts).dirs parts).1
        ++ (scanFrameworks (splitByte 0x20 out.stdout)).map Directive.linkFramework ∧
      lib = ⟨(linkLibs w.fs (cfg.statik.getD (infer_static w.env name))
                (classifyParts parts).dirs parts).2,
             (classifyParts parts).link_paths,
             scanFrameworks (splitByte 0x20 out.stdout),
             (classifyParts parts).framework_paths,
             (classifyParts parts).include_paths⟩ := by
  simp only [Config.find] at h
  split_ifs at h with h1 h2
  · simp at h
  · simp at h
  · split at h
    · simp at h
    · rename_i out hrun
      split_ifs at h with h3 h4
      · split at h
        · rename_i ds' lib' hpo
          simp only [processOutput] at hpo
          split at hpo
          · simp at hpo
          · rename_i parts hsp
            obtain ⟨hds', hlib'⟩ := Prod.mk.injEq .. ▸ (Option.some_inj.1 hpo)
            obtain ⟨hcmds, hpair⟩ := Prod.mk.injEq .. ▸ (Option.some_inj.1 h)
            obtain ⟨hds2, hexc⟩ := Prod.mk.injEq .. ▸ hpair
            have hlib2 : _ = lib := Except.ok.injEq .. ▸ hexc
            refine ⟨out, parts, hrun, hcmds.symm, hsp, ?_, ?_⟩
            · rw [← hds2, ← hds']
            · rw [← hlib2, ← hlib']
        · simp at h
      · simp at h

theorem is_system_lib_eq_false_iff (fs : RPath → Bool) (name : Bytes) (dirs : List RPath) :
    is_system_lib fs name dirs = false ↔
      ∃ d ∈ dirs, startsWithPath d (pathOf (strBytes "/usr")) = false ∧
        fs (joinPath d (strBytes "lib" ++ name ++ strBytes ".a")) = true := by
  simp only [is_system_lib, Bool.not_eq_false', List.any_eq_true, Bool.and_eq_true,
    Bool.not_eq_true']

theorem infer_static_eq_inferSpec (env : Env) (name : Bytes) :
    infer_static env name = inferSpec env name := rfl

theorem linkLibStatic_mem_iff (fs : RPath → Bool) (statik : Bool) (dirs : List RPath)
    (parts : List FlagVal) (val : Bytes) :
    Directive.linkLibStatic val ∈ (linkLibs fs statik dirs parts).1 ↔
      ((∃ p ∈ parts, p.1 = strBytes "-l" ∧ p.2 = val) ∧
        (statik && !is_system_lib fs val dirs) = true) := by
  rw [linkLibs_eq]
  simp only [List.mem_map, List.mem_filter, beq_iff_eq]
  constructor
  · rintro ⟨p, ⟨hp, hpl⟩, hd⟩
    by_cases hc : (statik && !is_system_lib fs p.2 dirs) = true
    · rw [if_pos hc] at hd
      have hv : p.2 = val := by injection hd
      exact ⟨⟨p, hp, hpl, hv⟩, hv ▸ hc⟩
    · rw [if_neg hc] at hd
      exact absurd hd (by simp)
  · rintro ⟨⟨p, hp, hpl, hv⟩, hc⟩
    refine ⟨p, ⟨hp, hpl⟩, ?_⟩
    rw [hv, if_pos hc]

theorem linkLibDynamic_mem_of (fs : RPath → Bool) (statik : Bool) (dirs : List RPath)
    (parts : List FlagVal) (val : Bytes)
    (hmem : ∃ p ∈ parts, p.1 = strBytes "-l" ∧ p.2 = val)
    (hc : (statik && !is_system_lib fs val dirs) = false) :
    Directive.linkLibDynamic val ∈ (linkLibs fs statik dirs parts).1 := by
  rw [linkLibs_eq]
  simp only [List.mem_map, List.mem_filter, beq_iff_eq]
  obtain ⟨p, hp, hpl, hv⟩ := hmem
  refine ⟨p, ⟨hp, hpl⟩, ?_⟩
  rw [hv, if_neg (by simp [hc])]

theorem libs_mem_iff (fs : RPath → Bool) (statik : Bool) (dirs : List RPath)
    (parts : List FlagVal) (val : Bytes) :
    val ∈ (linkLibs fs statik dirs parts).2 ↔
      ∃ p ∈ parts, p.1 = strBytes "-l" ∧ p.2 = val := by
  rw [linkLibs_eq]
  simp only [List.mem_map, List.mem_filter, beq_iff_eq]
  constructor
  · rintro ⟨p, ⟨hp, hpl⟩, hv⟩
    exact ⟨p, hp, hpl, hv⟩
  · rintro ⟨p, hp, hpl, hv⟩
    exact ⟨p, ⟨hp, hpl⟩, hv⟩

theorem linkLibStatic_notmem_framework_map (val : Bytes) (fws : List Bytes) :
    Directive.linkLibStatic val ∉ fws.map Directive.linkFramework := by
  simp

theorem sliceParts_flag_notL (stdout : Bytes) (parts : List FlagVal)
    (hsp : sliceParts stdout = some parts)
    (hnoL : ∀ t ∈ splitByte 0x20 stdout, t.take 2 ≠ strBytes "-L") :
    ∀ p ∈ parts, p.1 ≠ strBytes "-L" := by
  intro p hp
  obtain ⟨t, ht, hft⟩ := mem_of_mapOpt_some sliceTok _ _ hsp p hp
  have hsplit : t ∈ splitByte 0x20 stdout := (List.mem_filter.1 ht).1
  have := sliceTok_eq_of_some t p hft
  rw [this]
  exact hnoL t hsplit

/-- C8: for every library name made of letters, digits and dashes, the
derived environment-variable stem is the uppercased name with every dash
replaced by an underscore, and envify is idempotent. -/
theorem C8_envify_spec (name : Bytes)
    (_h : ∀ b ∈ name, (0x41 ≤ b ∧ b ≤ 0x5A) ∨ (0x61 ≤ b ∧ b ≤ 0x7A) ∨
      (0x30 ≤ b ∧ b ≤ 0x39) ∨ b = 0x2D) :
    envify name = name.map (fun b => if b = 0x2D then 0x5F
        else if 0x61 ≤ b ∧ b ≤ 0x7A then b - 0x20 else b) ∧
    envify (envify name) = envify name := by
  have hpt : ∀ b : Nat,
      (fun c => if c == 0x2D then 0x5F else c)
        ((fun c => if 0x61 ≤ c && c ≤ 0x7A then c - 0x20 else c) b) =
      (if b = 0x2D then 0x5F else if 0x61 ≤ b ∧ b ≤ 0x7A then b - 0x20 else b) := by
    intro b
    simp only [beq_iff_eq, Bool.and_eq_true, decide_eq_true_eq]
    split_ifs <;> omega
  constructor
  · unfold envify
    rw [List.map_map]
    exact List.map_congr_left (fun b _ => hpt b)
  · unfold envify
    simp only [List.map_map]
    refine List.map_congr_left (fun b _ => ?_)
    simp only [Function.comp_apply, beq_iff_eq, Bool.and_eq_true, decide_eq_true_eq]
    split_ifs <;> omega

/-- C8 witness: the name foo-bar satisfies the alphabet restriction and
envify maps it to FOO_BAR, idempotently. -/
theorem C8_envify_spec_witness :
    (∀ b ∈ strBytes "foo-bar", (0x41 ≤ b ∧ b ≤ 0x5A) ∨ (0x61 ≤ b ∧ b ≤ 0x7A) ∨
      (0x30 ≤ b ∧ b ≤ 0x39) ∨ b = 0x2D) ∧
    (envify (strBytes "foo-bar") = (strBytes "foo-bar").map (fun b => if b = 0x2D then 0x5F
        else if 0x61 ≤ b ∧ b ≤ 0x7A then b - 0x20 else b) ∧
     envify (envify (strBytes "foo-bar")) = envify (strBytes "foo-bar")) :=
  ⟨by decide, C8_envify_spec (strBytes "foo-bar") (by decide)⟩

/-- C3: for every resolution that reaches the point of building the
command, the link mode governing the --static block of the arguments is
the explicit Config override when set, and otherwise the spec's
first-match rule chain over the environment (per-library static, then
per-library dynamic, then global static, then global dynamic, then
dynamic); moreover whenever the per-library static variable is set the
inferred mode is static regardless of every other variable. -/
theorem C3_link_mode_precedence (cfg : Config) (w : World) (name : Bytes)
    (cmds : List Cmd) (ds : List Directive) (r : Except Bytes Library)
    (h : Config.find cfg w name = some (cmds, ds, r)) (cmd : Cmd) (hc : cmd ∈ cmds) :
    cmd.args = (if cfg.statik.getD (inferSpec w.env name) then [strBytes "--static"] else [])
      ++ [strBytes "--libs", strBytes "--cflags"]
      ++ [match cfg.atleast_version with
          | some v => name ++ strBytes " >= " ++ v
          | none => name] ∧
    ((w.env (envify name ++ strBytes "_STATIC")).isSome = true →
      infer_static w.env name = true) := by
  rcases find_some_cmds cfg w name cmds ds r h with hnil | hone
  · subst hnil; simp at hc
  · subst hone
    have hcmd : cmd = buildCmd cfg w.env name := by simpa using hc
    subst hcmd
    refine ⟨?_, ?_⟩
    · rw [← infer_static_eq_inferSpec]
      rfl
    · intro hs
      simp [infer_static, hs]

/-- C3 witness: with FOO_STATIC, FOO_DYNAMIC and PKG_CONFIG_ALL_DYNAMIC
all set and no explicit override, resolution of foo passes --static. -/
theorem C3_link_mode_precedence_witness :
    Config.find cfgPlain wBoth (strBytes "foo") =
      some ([buildCmd cfgPlain wBoth.env (strBytes "foo")], [], Except.ok libEmpty) ∧
    ((buildCmd cfgPlain wBoth.env (strBytes "foo")).args =
       (if cfgPlain.statik.getD (inferSpec wBoth.env (strBytes "foo"))
        then [strBytes "--static"] else [])
       ++ [strBytes "--libs", strBytes "--cflags"] ++ [strBytes "foo"] ∧
     ((wBoth.env (envify (strBytes "foo") ++ strBytes "_STATIC")).isSome = true →
       infer_static wBoth.env (strBytes "foo") = true)) :=
  ⟨rfl, C3_link_mode_precedence cfgPlain wBoth (strBytes "foo") _ _ _ rfl _
    (List.mem_singleton_self _)⟩

/-- C6: the per-library opt-out is checked first: when it is set, find
fails with the disabled error naming the library, spawning nothing, and
otherwise when HOST and TARGET differ with no PKG_CONFIG_ALLOW_CROSS
set, find fails with the cross-compilation message (which names the
override variable), again spawning nothing. -/
theorem C6_early_failures (cfg : Config) (w : World) (name : Bytes) :
    ((w.env (envify name ++ strBytes "_NO_PKG_CONFIG")).isSome = true →
      Config.find cfg w name =
        some ([], [], Except.error
          (strBytes "pkg-config requested to be aborted for " ++ name))) ∧
    (w.env (envify name ++ strBytes "_NO_PKG_CONFIG") = none →
     w.env (strBytes "HOST") ≠ w.env (strBytes "TARGET") →
     w.env (strBytes "PKG_CONFIG_ALLOW_CROSS") = none →
      Config.find cfg w name = some ([], [], Except.error crossMsg)) := by
  constructor
  · intro h1
    simp [Config.find, h1]
  · intro h1 h2 h3
    have hts : target_supported w.env = false := by
      simp [target_supported, h3, beq_eq_false_iff_ne]
      exact h2
    simp [Config.find, h1, hts]

/-- C6 witness: with FOO_NO_PKG_CONFIG set find aborts naming foo, and
with HOST x, TARGET y and no override find fails with the
cross-compilation message; in both runs no command is spawned. -/
theorem C6_early_failures_witness :
    ((wNoPkg.env (envify (strBytes "foo") ++ strBytes "_NO_PKG_CONFIG")).isSome = true ∧
     Config.find cfgPlain wNoPkg (strBytes "foo") =
       some ([], [], Except.error
         (strBytes "pkg-config requested to be aborted for " ++ strBytes "foo"))) ∧
    (wCross.env (strBytes "HOST") ≠ wCross.env (strBytes "TARGET") ∧
     Config.find cfgPlain wCross (strBytes "foo") =
       some ([], [], Except.error crossMsg)) :=
  ⟨⟨rfl, (C6_early_failures cfgPlain wNoPkg (strBytes "foo")).1 rfl⟩,
   ⟨by decide, (C6_early_failures cfgPlain wCross (strBytes "foo")).2 rfl (by decide) rfl⟩⟩

/-- C7: every spawned command is pkg-config with exactly the --static
flag when and only when the resolved mode is static, then --libs and
--cflags, a single query argument (name, or name with a minimum-version
constraint), and the PKG_CONFIG_ALLOW_SYSTEM_LIBS=1 environment
addition. -/
theorem C7_command_shape (cfg : Config) (w : World) (name : Bytes)
    (cmds : List Cmd) (ds : List Directive) (r : Except Bytes Library)
    (h : Config.find cfg w name = some (cmds, ds, r)) (cmd : Cmd) (hc : cmd ∈ cmds) :
    cmd.program = strBytes "pkg-config" ∧
    cmd.args = (if cfg.statik.getD (infer_static w.env name) then [strBytes "--static"] else [])
      ++ [strBytes "--libs", strBytes "--cflags"]
      ++ [match cfg.atleast_version with
          | some v => name ++ strBytes " >= " ++ v
          | none => name] ∧
    cmd.extraEnv = [(strBytes "PKG_CONFIG_ALLOW_SYSTEM_LIBS", strBytes "1")] := by
  rcases find_some_cmds cfg w name cmds ds r h with hnil | hone
  · subst hnil; simp at hc
  · subst hone
    have hcmd : cmd = buildCmd cfg w.env name := by simpa using hc
    subst hcmd
    exact ⟨rfl, rfl, rfl⟩

/-- C7 witness: with PKG_CONFIG_ALL_STATIC set and a minimum version
1.2 configured, the spawned command is pkg-config --static --libs
--cflags with the single query argument foo space-gte-space 1.2 and the
system-libs environment addition. -/
theorem C7_command_shape_witness :
    Config.find cfgVers wAllStatic (strBytes "foo") =
      some ([buildCmd cfgVers wAllStatic.env (strBytes "foo")], [], Except.ok libEmpty) ∧
    ((buildCmd cfgVers wAllStatic.env (strBytes "foo")).program = strBytes "pkg-config" ∧
     (buildCmd cfgVers wAllStatic.env (strBytes "foo")).args =
       (if cfgVers.statik.getD (infer_static wAllStatic.env (strBytes "foo"))
        then [strBytes "--static"] else [])
       ++ [strBytes "--libs", strBytes "--cflags"]
       ++ [strBytes "foo" ++ strBytes " >= " ++ strBytes "1.2"] ∧
     (buildCmd cfgVers wAllStatic.env (strBytes "foo")).extraEnv =
       [(strBytes "PKG_CONFIG_ALLOW_SYSTEM_LIBS", strBytes "1")]) :=
  ⟨rfl, C7_command_shape cfgVers wAllStatic (strBytes "foo") _ _ _ rfl _
    (List.mem_singleton_self _)⟩

/-- C4 counterexample: on the valid UTF-8 token "éab" (4 bytes, 3
characters, so it passes the length filter under either reading) the
tokenizer slices the first two BYTES, producing the one-character flag
"é" = [0xC3, 0xA9] with value "ab"; the claim's pair of (first two
characters, rest) would instead have flag "éa" = [0xC3, 0xA9, 0x61].
So parsing does not map every kept token to (first two characters,
rest). -/
theorem C4_counterexample :
    sliceParts (strBytes "éab") = some [([0xC3, 0xA9], [0x61, 0x62])] ∧
    strBytes "éa" = [0xC3, 0xA9, 0x61] ∧
    ([0xC3, 0xA9] : Bytes) ≠ strBytes "éa" :=
  ⟨rfl, rfl, by decide⟩

/-- C4 amended: for every input, parsing splits on single spaces,
discards every token whose BYTE length is at most 2 and, whenever it
does not panic, maps each remaining token to (first two bytes, rest of
the bytes) in input order; parsing is deterministic; and the claim's
concrete example parses to exactly the three stated ordered pairs. -/
theorem C4_parsing_description :
    (∀ s ps, sliceParts s = some ps → ps = partsSpec s) ∧
    (∀ s, parseParts s = parseParts s) ∧
    sliceParts (strBytes "-L/usr/lib -lfoo -I/usr/include") =
      some [(strBytes "-L", strBytes "/usr/lib"), (strBytes "-l", strBytes "foo"),
            (strBytes "-I", strBytes "/usr/include")] :=
  ⟨fun s ps h => sliceParts_some_eq s ps h, fun _ => rfl, rfl⟩

/-- C4 witness: the description theorem applied at the concrete output
"-Fdir -lz x" whose parse succeeds. -/
theorem C4_parsing_description_witness :
    sliceParts (strBytes "-Fdir -lz x") =
      some [(strBytes "-F", strBytes "dir"), (strBytes "-l", strBytes "z")] ∧
    [(strBytes "-F", strBytes "dir"), (strBytes "-l", strBytes "z")] =
      partsSpec (strBytes "-Fdir -lz x") :=
  ⟨rfl, C4_parsing_description.1 (strBytes "-Fdir -lz x")
    [(strBytes "-F", strBytes "dir"), (strBytes "-l", strBytes "z")] rfl⟩

/-- C5 counterexample: parsing is not total on arbitrary tool output:
on the non-UTF-8 stdout [0xFF] the str::from_utf8 unwrap panics, so the
token step produces no sequence, and a full resolution with that stdout
panics (modeled as none) instead of returning a result. -/
theorem C5_counterexample :
    parseParts [0xFF] = none ∧
    Config.find cfgStatic wPanic (strBytes "foo") = none :=
  ⟨rfl, rfl⟩

/-- C5 amended: on every ASCII stdout (all bytes below 0x80) the
tokenizer cannot fail: it returns the split/filter/slice sequence, with
short tokens silently dropped; on non-UTF-8 stdout, or on a kept token
whose third byte continues a multi-byte character, the resolver panics
instead. -/
theorem C5_ascii_parse_total (s : Bytes) (h : ∀ b ∈ s, b < 0x80) :
    parseParts s = some (partsSpec s) := by
  unfold parseParts
  rw [isUtf8_of_ascii s h, if_pos rfl]
  unfold sliceParts partsSpec
  refine mapOpt_eq_some_map sliceTok (fun a => (a.take 2, a.drop 2)) (rawTokens s) ?_
  intro t ht
  refine sliceTok_of_ascii t ?_
  intro b hb
  exact h b (mem_of_mem_splitByte 0x20 s t (List.mem_filter.1 ht).1 b hb)

/-- C5 witness: the ASCII totality theorem applied to a concrete ASCII
output containing a malformed short token, which is silently dropped. -/
theorem C5_ascii_parse_total_witness :
    (∀ b ∈ strBytes "-l -L/x", b < 0x80) ∧
    parseParts (strBytes "-l -L/x") = some (partsSpec (strBytes "-l -L/x")) ∧
    partsSpec (strBytes "-l -L/x") = [(strBytes "-L", strBytes "/x")] :=
  ⟨by decide, C5_ascii_parse_total (strBytes "-l -L/x") (by decide), rfl⟩

/-- C1: in every successful resolution, a -l library entry gets the
static directive if and only if the resolved mode is static and some
collected -L search directory that is not /usr nor under /usr contains
lib<name>.a; archives under /usr never justify static linking. -/
theorem C1_static_directive_iff (cfg : Config) (w : World) (name : Bytes)
    (cmds : List Cmd) (ds : List Directive) (lib : Library)
    (h : Config.find cfg w name = some (cmds, ds, Except.ok lib))
    (val : Bytes) (hval : val ∈ lib.libs) :
    Directive.linkLibStatic val ∈ ds ↔
      (cfg.statik.getD (infer_static w.env name) = true ∧
       ∃ d ∈ lib.link_paths, startsWithPath d (pathOf (strBytes "/usr")) = false ∧
         w.fs (joinPath d (strBytes "lib" ++ val ++ strBytes ".a")) = true) := by
  obtain ⟨out, parts, hrun, hcmds, hsp, hds, hlib⟩ := find_ok_inv cfg w name cmds ds lib h
  have hlibs : lib.libs = (linkLibs w.fs (cfg.statik.getD (infer_static w.env name))
      (classifyParts parts).dirs parts).2 := by rw [hlib]
  have hlp : lib.link_paths = (classifyParts parts).dirs := by
    rw [hlib]
    exact (classifyParts_dirs_eq parts).symm
  rw [hlibs] at hval
  have hvp := (libs_mem_iff w.fs (cfg.statik.getD (infer_static w.env name))
    (classifyParts parts).dirs parts val).1 hval
  rw [hds, hlp]
  constructor
  · intro hmem
    rcases List.mem_append.1 hmem with hAB | hC
    · rcases List.mem_append.1 hAB with hA | hB
      · rcases classifyParts_directives_shape parts _ hA with ⟨v, hv⟩ | ⟨v, hv⟩ <;> simp at hv
      · have hm := (linkLibStatic_mem_iff w.fs (cfg.statik.getD (infer_static w.env name))
          (classifyParts parts).dirs parts val).1 hB
        obtain ⟨hst, hsysb⟩ := Bool.and_eq_true .. ▸ hm.2
        refine ⟨hst, ?_⟩
        exact (is_system_lib_eq_false_iff w.fs val (classifyParts parts).dirs).1
          (Bool.not_eq_true' .. ▸ hsysb)
    · exact absurd hC (linkLibStatic_notmem_framework_map val _)
  · rintro ⟨hst, d, hd, hsw, hfs⟩
    have hsys : is_system_lib w.fs val (classifyParts parts).dirs = false :=
      (is_system_lib_eq_false_iff w.fs val (classifyParts parts).dirs).2 ⟨d, hd, hsw, hfs⟩
    have hcond : (cfg.statik.getD (infer_static w.env name)
        && !is_system_lib w.fs val (classifyParts parts).dirs) = true := by
      rw [hst, hsys]
      rfl
    have hmem := (linkLibStatic_mem_iff w.fs (cfg.statik.getD (infer_static w.env name))
      (classifyParts parts).dirs parts val).2 ⟨hvp, hcond⟩
    exact List.mem_append.2 (Or.inl (List.mem_append.2 (Or.inr hmem)))

/-- C1 witness: with explicit static mode, stdout -L/opt/lib -lfoo and
an archive at /opt/lib/libfoo.a, the resolution emits the static
directive and the equivalence is witnessed. -/
theorem C1_static_directive_iff_witness :
    Config.find cfgStatic wOpt (strBytes "foo") =
      some ([buildCmd cfgStatic wOpt.env (strBytes "foo")], dsOpt, Except.ok libOpt) ∧
    strBytes "foo" ∈ libOpt.libs ∧
    (Directive.linkLibStatic (strBytes "foo") ∈ dsOpt ↔
      (cfgStatic.statik.getD (infer_static wOpt.env (strBytes "foo")) = true ∧
       ∃ d ∈ libOpt.link_paths, startsWithPath d (pathOf (strBytes "/usr")) = false ∧
         wOpt.fs (joinPath d (strBytes "lib" ++ strBytes "foo" ++ strBytes ".a")) = true)) :=
  ⟨rfl, by decide,
   C1_static_directive_iff cfgStatic wOpt (strBytes "foo") _ _ _ rfl (strBytes "foo")
     (by decide)⟩

/-- C2 counterexample: in static mode, with stdout -L/opt/lib -lfoo and
a matching archive /opt/lib/libfoo.a outside the trusted root /usr, the
code emits the STATIC directive for foo and no dynamic one — the claim
says the presence of a matching archive outside /usr forces the dynamic
directive, so the claim is false on this resolution. -/
theorem C2_counterexample :
    Config.find cfgStatic wOpt (strBytes "foo") =
      some ([buildCmd cfgStatic wOpt.env (strBytes "foo")], dsOpt, Except.ok libOpt) ∧
    startsWithPath (pathOf (strBytes "/opt/lib")) (pathOf (strBytes "/usr")) = false ∧
    wOpt.fs (joinPath (pathOf (strBytes "/opt/lib")) (strBytes "libfoo.a")) = true ∧
    Directive.linkLibStatic (strBytes "foo") ∈ dsOpt ∧
    Directive.linkLibDynamic (strBytes "foo") ∉ dsOpt :=
  ⟨rfl, rfl, rfl, by decide, by decide⟩

/-- C2 amended: the static directive for a library entry is emitted only
if the overall mode is static AND the library IS found as lib<name>.a
under at least one collected search directory outside the trusted root
/usr (absence of such an archive forces the dynamic directive). -/
theorem C2_static_requires_archive (cfg : Config) (w : World) (name : Bytes)
    (cmds : List Cmd) (ds : List Directive) (lib : Library)
    (h : Config.find cfg w name = some (cmds, ds, Except.ok lib))
    (val : Bytes) (hmem : Directive.linkLibStatic val ∈ ds) :
    cfg.statik.getD (infer_static w.env name) = true ∧
    ∃ d ∈ lib.link_paths, startsWithPath d (pathOf (strBytes "/usr")) = false ∧
      w.fs (joinPath d (strBytes "lib" ++ val ++ strBytes ".a")) = true := by
  obtain ⟨out, parts, hrun, hcmds, hsp, hds, hlib⟩ := find_ok_inv cfg w name cmds ds lib h
  have hlp : lib.link_paths = (classifyParts parts).dirs := by
    rw [hlib]
    exact (classifyParts_dirs_eq parts).symm
  rw [hds] at hmem
  rw [hlp]
  rcases List.mem_append.1 hmem with hAB | hC
  · rcases List.mem_append.1 hAB with hA | hB
    · rcases classifyParts_directives_shape parts _ hA with ⟨v, hv⟩ | ⟨v, hv⟩ <;> simp at hv
    · have hm := (linkLibStatic_mem_iff w.fs (cfg.statik.getD (infer_static w.env name))
        (classifyParts parts).dirs parts val).1 hB
      obtain ⟨hst, hsysb⟩ := Bool.and_eq_true .. ▸ hm.2
      refine ⟨hst, ?_⟩
      exact (is_system_lib_eq_false_iff w.fs val (classifyParts parts).dirs).1
        (Bool.not_eq_true' .. ▸ hsysb)
  · exact absurd hC (linkLibStatic_notmem_framework_map val _)

/-- C2 amended witness: the static directive emitted for foo in the
/opt/lib scenario indeed comes with an archive outside /usr. -/
theorem C2_static_requires_archive_witness :
    Config.find cfgStatic wOpt (strBytes "foo") =
      some ([buildCmd cfgStatic wOpt.env (strBytes "foo")], dsOpt, Except.ok libOpt) ∧
    Directive.linkLibStatic (strBytes "foo") ∈ dsOpt ∧
    (cfgStatic.statik.getD (infer_static wOpt.env (strBytes "foo")) = true ∧
     ∃ d ∈ libOpt.link_paths, startsWithPath d (pathOf (strBytes "/usr")) = false ∧
       wOpt.fs (joinPath d (strBytes "lib" ++ strBytes "foo" ++ strBytes ".a")) = true) :=
  ⟨rfl, by decide,
   C2_static_requires_archive cfgStatic wOpt (strBytes "foo") _ _ _ rfl (strBytes "foo")
     (by decide)⟩

/-- C9: in a static-mode resolution whose stdout contains no token
starting with -L, no search directory is collected, so every -l library
entry receives the dynamic directive and never the static one. -/
theorem C9_no_search_dirs_dynamic (cfg : Config) (w : World) (name : Bytes)
    (cmds : List Cmd) (ds : List Directive) (lib : Library) (out : CmdOutput)
    (h : Config.find cfg w name = some (cmds, ds, Except.ok lib))
    (hrun : w.run (buildCmd cfg w.env name) = CmdOutcome.ran out)
    (_hstatic : cfg.statik.getD (infer_static w.env name) = true)
    (hnoL : ∀ t ∈ splitByte 0x20 out.stdout, t.take 2 ≠ strBytes "-L")
    (val : Bytes) (hval : val ∈ lib.libs) :
    Directive.linkLibDynamic val ∈ ds ∧ Directive.linkLibStatic val ∉ ds := by
  obtain ⟨out', parts, hrun', hcmds, hsp, hds, hlib⟩ := find_ok_inv cfg w name cmds ds lib h
  have hout : out' = out := by
    have h12 : CmdOutcome.ran out' = CmdOutcome.ran out := hrun'.symm.trans hrun
    injection h12
  subst hout
  have hnoLp := sliceParts_flag_notL out'.stdout parts hsp hnoL
  have hdirs : (classifyParts parts).dirs = [] := classifyParts_dirs_nil parts hnoLp
  have hsysv : is_system_lib w.fs val (classifyParts parts).dirs = true := by
    rw [hdirs]
    rfl
  have hcond : (cfg.statik.getD (infer_static w.env name)
      && !is_system_lib w.fs val (classifyParts parts).dirs) = false := by
    rw [hsysv]
    simp
  have hlibs : lib.libs = (linkLibs w.fs (cfg.statik.getD (infer_static w.env name))
      (classifyParts parts).dirs parts).2 := by rw [hlib]
  rw [hlibs] at hval
  have hvp := (libs_mem_iff w.fs (cfg.statik.getD (infer_static w.env name))
    (classifyParts parts).dirs parts val).1 hval
  constructor
  · rw [hds]
    have hdyn := linkLibDynamic_mem_of w.fs (cfg.statik.getD (infer_static w.env name))
      (classifyParts parts).dirs parts val hvp hcond
    exact List.mem_append.2 (Or.inl (List.mem_append.2 (Or.inr hdyn)))
  · rw [hds]
    intro hmem
    rcases List.mem_append.1 hmem with hAB | hC
    · rcases List.mem_append.1 hAB with hA | hB
      · rcases classifyParts_directives_shape parts _ hA with ⟨v, hv⟩ | ⟨v, hv⟩ <;> simp at hv
      · have hm := (linkLibStatic_mem_iff w.fs (cfg.statik.getD (infer_static w.env name))
          (classifyParts parts).dirs parts val).1 hB
        exact Bool.false_ne_true (hcond.symm.trans hm.2)
    · exact absurd hC (linkLibStatic_notmem_framework_map val _)

/-- C9 witness: explicit static mode, stdout -lfoo with no -L token:
foo gets the dynamic directive and no static one. -/
theorem C9_no_search_dirs_dynamic_witness :
    Config.find cfgStatic wNoDirs (strBytes "foo") =
      some ([buildCmd cfgStatic wNoDirs.env (strBytes "foo")],
        [Directive.linkLibDynamic (strBytes "foo")],
        Except.ok ⟨[strBytes "foo"], [], [], [], []⟩) ∧
    cfgStatic.statik.getD (infer_static wNoDirs.env (strBytes "foo")) = true ∧
    (∀ t ∈ splitByte 0x20 (strBytes "-lfoo"), t.take 2 ≠ strBytes "-L") ∧
    (Directive.linkLibDynamic (strBytes "foo") ∈ [Directive.linkLibDynamic (strBytes "foo")] ∧
     Directive.linkLibStatic (strBytes "foo") ∉ [Directive.linkLibDynamic (strBytes "foo")]) :=
  ⟨rfl, rfl, by decide,
   C9_no_search_dirs_dynamic cfgStatic wNoDirs (strBytes "foo") _ _ _
     ⟨true, [], strBytes "-lfoo", []⟩ rfl rfl rfl (by decide) (strBytes "foo") (by decide)⟩

/-- C10 counterexample: on stdout "-framework -framework X" the second
occurrence of the token -framework has the following token X, yet X is
not added as a framework: the first occurrence consumed the second as
its name, so the scan yields exactly ["-framework"] — the claim's
"every occurrence with a following token yields that token" fails. -/
theorem C10_counterexample :
    splitByte 0x20 (strBytes "-framework -framework X") =
      [strBytes "-framework", strBytes "-framework", strBytes "X"] ∧
    scanFrameworks [strBytes "-framework", strBytes "-framework", strBytes "X"] =
      [strBytes "-framework"] ∧
    strBytes "X" ∉
      scanFrameworks [strBytes "-framework", strBytes "-framework", strBytes "X"] :=
  ⟨rfl, rfl, by decide⟩

/-- C10 amended: the framework scan re-splits raw stdout on spaces with
no length filter and walks tokens left to right; each token equal to
-framework with a following token appends that following token (even a
1- or 2-character one) as a framework and consumes it, resuming after
it, so a consumed name is not examined as a marker; a final -framework
with no follower adds nothing.  The resolver's framework list is
exactly this scan of its stdout, and the corresponding link-framework
directives are emitted after all others. -/
theorem C10_framework_scan :
    (∀ cfg w name cmds ds lib out,
      Config.find cfg w name = some (cmds, ds, Except.ok lib) →
      w.run (buildCmd cfg w.env name) = CmdOutcome.ran out →
      lib.frameworks = scanFrameworks (splitByte 0x20 out.stdout) ∧
      (scanFrameworks (splitByte 0x20 out.stdout)).map Directive.linkFramework <:+ ds) ∧
    (∀ nm rest, scanFrameworks (strBytes "-framework" :: nm :: rest) =
      nm :: scanFrameworks rest) ∧
    (∀ t rest, t ≠ strBytes "-framework" →
      scanFrameworks (t :: rest) = scanFrameworks rest) ∧
    scanFrameworks [strBytes "-framework"] = [] ∧
    scanFrameworks (splitByte 0x20 (strBytes "-framework Fo -framework Ba")) =
      [strBytes "Fo", strBytes "Ba"] ∧
    scanFrameworks (splitByte 0x20 (strBytes "-lfoo -framework")) = [] := by
  refine ⟨?_, ?_, ?_, rfl, rfl, rfl⟩
  · intro cfg w name cmds ds lib out h hrun
    obtain ⟨out', parts, hrun', hcmds, hsp, hds, hlib⟩ := find_ok_inv cfg w name cmds ds lib h
    have hout : out' = out := by
      have h12 : CmdOutcome.ran out' = CmdOutcome.ran out := hrun'.symm.trans hrun
      injection h12
    subst hout
    constructor
    · rw [hlib]
    · refine ⟨(classifyParts parts).directives
        ++ (linkLibs w.fs (cfg.statik.getD (infer_static w.env name))
             (classifyParts parts).dirs parts).1, ?_⟩
      rw [hds]
  · intro nm rest
    rw [scanFrameworks.eq_def]
    simp
  · intro t rest ht
    rw [scanFrameworks.eq_def]
    have hb : (t == strBytes "-framework") = false := beq_eq_false_iff_ne.2 ht
    simp [hb]

/-- C10 witness: the find connection applied to a run whose stdout is
"-framework Fo -framework Ba -lfoo": the 2-character names Fo and Ba
are collected in order and their directives trail the others. -/
theorem C10_framework_scan_witness :
    Config.find cfgPlain wFrame (strBytes "foo") =
      some ([buildCmd cfgPlain wFrame.env (strBytes "foo")],
        [Directive.linkLibDynamic (strBytes "foo"), Directive.linkFramework (strBytes "Fo"),
         Directive.linkFramework (strBytes "Ba")],
        Except.ok ⟨[strBytes "foo"], [], [strBytes "Fo", strBytes "Ba"], [], []⟩) ∧
    ((⟨[strBytes "foo"], [], [strBytes "Fo", strBytes "Ba"], [], []⟩ : Library).frameworks =
       scanFrameworks (splitByte 0x20 (strBytes "-framework Fo -framework Ba -lfoo")) ∧
     (scanFrameworks (splitByte 0x20
         (strBytes "-framework Fo -framework Ba -lfoo"))).map Directive.linkFramework <:+
       [Directive.linkLibDynamic (strBytes "foo"), Directive.linkFramework (strBytes "Fo"),
        Directive.linkFramework (strBytes "Ba")]) :=
  ⟨rfl, C10_framework_scan.1 cfgPlain wFrame (strBytes "foo") _ _ _
    ⟨true, [], strBytes "-framework Fo -framework Ba -lfoo", []⟩ rfl rfl⟩
